import Mathlib

/-!
# Verification of the prediction-market aggregation core (`oracle` pipeline)

Shallow embedding of the deterministic data-extraction / classification /
pagination pipeline: `extractYear`, `categorizeEvent`, `determineSignal`,
`getConfidence`, `processPolymarketEvents`, `groupByYear`, and a
response-environment model of `fetchPolymarketEvents`.

Texts are modelled as `String` (lists of characters); JavaScript numbers are
modelled as `Option ℚ`, with `none` playing the role of `NaN` (every
comparison against `NaN` is false, which the embedding makes explicit at each
comparison site).  Each JavaScript regex of the source is embedded as a
direct left-to-right scanner implementing the same leftmost-match semantics.
-/

namespace Oracle

/-- JavaScript word character, the `\w` class: `[A-Za-z0-9_]`. -/
def isWordChar (c : Char) : Bool := c.isAlpha || c.isDigit || c == '_'

/-- JavaScript whitespace (`\s`), restricted to the ASCII range that can occur
in the market questions this pipeline consumes. -/
def isJsWs (c : Char) : Bool :=
  c == ' ' || c == '\t' || c == '\n' || c == '\r' || c == '\x0b' || c == '\x0c'

/-- ASCII lower-casing of one character, as `String.prototype.toLowerCase`
acts on the ASCII range. -/
def asciiLower (c : Char) : Char :=
  if 'A' ≤ c && c ≤ 'Z' then Char.ofNat (c.toNat + 32) else c

/-- `text.toLowerCase()` on the ASCII range. -/
def jsToLower (s : String) : String := ⟨s.data.map asciiLower⟩

/-- Does the pattern occur as a literal prefix of the text? -/
def startsWithChars : List Char → List Char → Bool
  | [], _ => true
  | _ :: _, [] => false
  | p :: ps, c :: cs => p == c && startsWithChars ps cs

/-- `haystack.includes(needle)`: literal substring containment
(`String.prototype.includes`). -/
def charsInclude : List Char → List Char → Bool
  | hay, needle =>
    match hay with
    | [] => startsWithChars needle []
    | _ :: rest => startsWithChars needle hay || charsInclude rest needle

/-- `haystack.includes(needle)` on strings. -/
def jsIncludes (hay needle : String) : Bool := charsInclude hay.data needle.data

/-- Case-insensitive prefix match: if the (lower-case) pattern matches a
prefix of the text up to ASCII case, return the remaining text. -/
def ciStarts : List Char → List Char → Option (List Char)
  | [], s => some s
  | _ :: _, [] => none
  | p :: ps, c :: cs => if asciiLower c == asciiLower p then ciStarts ps cs else none

/-- Skip a (possibly empty) run of whitespace: the `\s*` tail of `\s+`. -/
def wsSkip : List Char → List Char
  | [] => []
  | c :: cs => if isJsWs c then wsSkip cs else c :: cs

/-- Match `\s+`: at least one whitespace character, greedily. -/
def wsPlus : List Char → Option (List Char)
  | [] => none
  | c :: cs => if isJsWs c then some (wsSkip cs) else none

/-- Match the year group `(202[5-9]|203[0-9])` as a prefix of the text,
returning the year value and the remaining text. -/
def yearFrom : List Char → Option (Nat × List Char)
  | c0 :: c1 :: c2 :: c3 :: rest =>
    if c0 == '2' && c1 == '0' &&
        ((c2 == '2' && ('5' ≤ c3 && c3 ≤ '9')) || (c2 == '3' && c3.isDigit)) then
      some (2000 + 10 * (c2.toNat - 48) + (c3.toNat - 48), rest)
    else none
  | _ => none

/-- Scanner for `/\b(202[5-9]|203[0-9])\b/`: leftmost occurrence of the year
group with word boundaries on both sides.  `prev` is the character just before
the current position (`none` at the start of the text). -/
def bareYearScan : Option Char → List Char → Option Nat
  | _, [] => none
  | prev, c :: rest =>
    let boundaryBefore := match prev with
      | none => true
      | some p => !isWordChar p
    match (if boundaryBefore then yearFrom (c :: rest) else none) with
    | some (y, after) =>
      if (match after with | [] => true | a :: _ => !isWordChar a) then some y
      else bareYearScan (some c) rest
    | none => bareYearScan (some c) rest

/-- Try a position-anchored matcher at every position, left to right:
the leftmost-match rule of `String.prototype.match`. -/
def scanFirst (m : List Char → Option Nat) : List Char → Option Nat
  | [] => m []
  | c :: rest =>
    match m (c :: rest) with
    | some y => some y
    | none => scanFirst m rest

/-- Anchored matcher for `/kw\s+(202[5-9]|203[0-9])/i` at the current
position. -/
def kwYearAt (kw : List Char) (s : List Char) : Option Nat :=
  (ciStarts kw s).bind fun r1 =>
    (wsPlus r1).bind fun r2 =>
      (yearFrom r2).map Prod.fst

/-- Anchored matcher for `/Q[1-4]\s+(202[5-9]|203[0-9])/i`. -/
def qYearAt : List Char → Option Nat
  | c :: d :: rest =>
    if asciiLower c == 'q' && ('1' ≤ d && d ≤ '4') then
      (wsPlus rest).bind fun r => (yearFrom r).map Prod.fst
    else none
  | _ => none

/-- After an alternation name matched leaving `r1`: consume an optional dot
(when the pattern has `\.?`), then `\s+`, then the year group.  When a dot is
present but not followed by whitespace, the no-dot backtrack also fails
(a dot is not `\s`), so the deterministic reading is faithful. -/
def dotWsYear (allowDot : Bool) (r1 : List Char) : Option Nat :=
  let r2opt := match allowDot, r1 with
    | true, '.' :: t => wsPlus t
    | _, _ => wsPlus r1
  r2opt.bind fun r2 => (yearFrom r2).map Prod.fst

/-- Anchored matcher for `/(name1|name2|...)\.?\s+(YEAR)/i`: try each
alternation name in order at the current position. -/
def altKwYearAt (kws : List (List Char)) (allowDot : Bool) (s : List Char) : Option Nat :=
  match kws with
  | [] => none
  | kw :: rest =>
    match ciStarts kw s with
    | some r1 =>
      match dotWsYear allowDot r1 with
      | some y => some y
      | none => altKwYearAt rest allowDot s
    | none => altKwYearAt rest allowDot s

/-- The full month names of the seventh year pattern, in alternation order. -/
def fullMonths : List (List Char) :=
  ["january".data, "february".data, "march".data, "april".data, "may".data,
    "june".data, "july".data, "august".data, "september".data, "october".data,
    "november".data, "december".data]

/-- The abbreviated month names of the eighth year pattern, in alternation
order. -/
def abbrevMonths : List (List Char) :=
  ["jan".data, "feb".data, "mar".data, "apr".data, "may".data, "jun".data,
    "jul".data, "aug".data, "sep".data, "oct".data, "nov".data, "dec".data]

/-- The ordered year-pattern list of `extractYear`, one scanner per regex. -/
def yearMatchers : List (List Char → Option Nat) :=
  [bareYearScan none,
    scanFirst (kwYearAt "by".data),
    scanFirst (kwYearAt "in".data),
    scanFirst (kwYearAt "before".data),
    scanFirst (kwYearAt "after".data),
    scanFirst qYearAt,
    scanFirst (altKwYearAt fullMonths false),
    scanFirst (altKwYearAt abbrevMonths true)]

/-- The pattern loop of `extractYear`: first matching pattern wins; a matched
year outside `[2025, 2040]` does not return and the loop continues (the bound
never fires, since the year group only produces 2025–2039). -/
def runMatchers : List (List Char → Option Nat) → List Char → Option Nat
  | [], _ => none
  | m :: ms, s =>
    match m s with
    | some y => if 2025 ≤ y ∧ y ≤ 2040 then some y else runMatchers ms s
    | none => runMatchers ms s

/-- `extractYear(text)`: try the ordered regex patterns, return the year of
the first match, `null` (here `none`) when no pattern matches. -/
def extractYear (text : String) : Option Nat :=
  runMatchers yearMatchers text.data

/-! ## Classifiers: category, signal, confidence -/

/-- The six fixed keyword sets of `categorizeEvent`, in declaration order
(JavaScript `Object.entries` iterates string keys in insertion order). -/
def categories : List (String × List String) :=
  [("Equities", ["stock", "share", "equity", "s&p", "nasdaq", "dow", "ipo",
      "apple", "google", "microsoft", "amazon", "tesla", "nvidia", "meta",
      "tsla", "aapl", "googl", "msft", "amzn", "nvda"]),
    ("Commodities", ["gold", "silver", "oil", "crude", "copper", "platinum",
      "commodity", "wheat", "corn", "natural gas", "wti", "brent"]),
    ("Crypto", ["bitcoin", "ethereum", "crypto", "btc", "eth", "blockchain",
      "solana", "cardano", "altcoin", "defi"]),
    ("Indices", ["index", "indices", "s&p 500", "nasdaq 100", "dow jones",
      "russell", "vix", "market index"]),
    ("Forex", ["dollar", "euro", "yen", "pound", "currency", "forex", "fx",
      "usd", "eur", "gbp", "jpy", "exchange rate"]),
    ("Economy", ["fed", "interest rate", "inflation", "recession", "gdp",
      "unemployment", "cpi", "treasury", "bond", "yield"])]

/-- The `for (const [category, keywords] of Object.entries(categories))` loop:
first category with any substring hit wins. -/
def firstHit (text : String) : List (String × List String) → String
  | [] => "Other"
  | (cat, kws) :: rest =>
    if kws.any (fun kw => jsIncludes text kw) then cat else firstHit text rest

/-- `categorizeEvent(title, description)`: keyword search over the
lower-cased, space-joined concatenation. -/
def categorizeEvent (title description : String) : String :=
  firstHit (jsToLower (title ++ " " ++ description)) categories

/-- The fixed bearish word set of `determineSignal`. -/
def bearishWords : List String :=
  ["below", "fall", "decline", "drop", "crash", "less than", "under"]

/-- The fixed bullish word set of `determineSignal`. -/
def bullishWords : List String :=
  ["above", "rise", "increase", "surge", "rally", "more than", "over", "reach"]

/-- Does the lower-cased question contain any bearish word? -/
def isBearishQuestion (question : String) : Bool :=
  bearishWords.any (fun w => jsIncludes (jsToLower question) w)

/-- Does the lower-cased question contain any bullish word? -/
def isBullishQuestion (question : String) : Bool :=
  bullishWords.any (fun w => jsIncludes (jsToLower question) w)

/-- `determineSignal(question, prob)`: phrasing class combined with the
probability thresholds, in source order. -/
def determineSignal (question : String) (prob : ℚ) : String :=
  if isBearishQuestion question ∧ prob > 0.6 then "bearish"
  else if isBullishQuestion question ∧ prob > 0.6 then "bullish"
  else if isBearishQuestion question ∧ prob < 0.4 then "bullish"
  else if isBullishQuestion question ∧ prob < 0.4 then "bearish"
  else "neutral"

/-- `getConfidence(prob)`. -/
def getConfidence (prob : ℚ) : String :=
  if prob ≥ 0.75 then "fact"
  else if prob ≥ 0.6 then "likely"
  else "uncertain"

/-! ## Number and JSON parsing

JavaScript numbers are modelled as `Option ℚ`: `none` is `NaN`.  The one
value of IEEE arithmetic that `ℚ` cannot carry is `Infinity`
(`parseFloat("Infinity")`); it is mapped to `none` here.  No claim under
verification involves an infinite parse result, and the volume gate treats
`NaN` and `Infinity` alike (`x < 5000` is false for both). -/

/-- Consume a maximal run of ASCII digits. -/
def digitRun : List Char → List Char × List Char
  | [] => ([], [])
  | c :: cs =>
    if c.isDigit then
      let p := digitRun cs
      (c :: p.1, p.2)
    else ([], c :: cs)

/-- Numeric value of a digit run. -/
def natOfDigits (ds : List Char) : Nat :=
  ds.foldl (fun n c => 10 * n + (c.toNat - 48)) 0

/-- `parseFloat(s)`: skip leading whitespace, parse the longest valid prefix
`[+-] digits [. digits] [e|E [+-] digits]`; `none` (NaN) when no digit is
consumed.  An exponent marker not followed by digits is not part of the
longest valid prefix and is ignored. -/
def jsParseFloat (s : String) : Option ℚ :=
  let l := wsSkip s.data
  let sign : Int × List Char := match l with
    | '+' :: t => (1, t)
    | '-' :: t => (-1, t)
    | _ => (1, l)
  let ip := digitRun sign.2
  let fp := match ip.2 with
    | '.' :: t => digitRun t
    | _ => ([], ip.2)
  if ip.1 = [] ∧ fp.1 = [] then none
  else
    let num : Int :=
      sign.1 * ((natOfDigits ip.1 * 10 ^ fp.1.length + natOfDigits fp.1 : Nat) : Int)
    let den : Nat := 10 ^ fp.1.length
    let expv : Int := match fp.2 with
      | e :: t =>
        if e == 'e' || e == 'E' then
          let es : Int × List Char := match t with
            | '+' :: u => (1, u)
            | '-' :: u => (-1, u)
            | _ => (1, t)
          let eds := digitRun es.2
          if eds.1 = [] then 0 else es.1 * (natOfDigits eds.1 : Int)
        else 0
      | [] => 0
    -- `sign * (ip . fp) * 10 ^ expv`, assembled with `Rat.divInt` on integer
    -- numerator and denominator (a kernel-computable normal form).
    if 0 ≤ expv then some (Rat.divInt (num * 10 ^ expv.toNat) (den : Int))
    else some (Rat.divInt num ((den * 10 ^ (-expv).toNat : Nat) : Int))

/-- JSON whitespace. -/
def jsonWsSkip : List Char → List Char
  | [] => []
  | c :: cs =>
    if c == ' ' || c == '\t' || c == '\n' || c == '\r' then jsonWsSkip cs
    else c :: cs

/-- JSON string body after the opening quote, with the common single-letter
escapes; returns the content and the text after the closing quote.  Fuelled
by the text length (each step consumes at least one character). -/
def jsonStringBody : Nat → List Char → Option (List Char × List Char)
  | 0, _ => none
  | _ + 1, [] => none
  | fuel + 1, c :: cs =>
    if c == '"' then some ([], cs)
    else if c == '\\' then
      match cs with
      | [] => none
      | e :: cs2 =>
        let dec : Option Char :=
          if e == '"' then some '"'
          else if e == '\\' then some '\\'
          else if e == '/' then some '/'
          else if e == 'n' then some '\n'
          else if e == 't' then some '\t'
          else if e == 'r' then some '\r'
          else if e == 'b' then some '\x08'
          else if e == 'f' then some '\x0c'
          else none
        match dec with
        | none => none
        | some ch => (jsonStringBody fuel cs2).map (fun p => (ch :: p.1, p.2))
    else (jsonStringBody fuel cs).map (fun p => (c :: p.1, p.2))

/-- Comma-separated JSON strings up to the closing bracket. -/
def jsonElems : Nat → List Char → Option (List String × List Char)
  | 0, _ => none
  | fuel + 1, l =>
    match l with
    | '"' :: t =>
      match jsonStringBody (t.length + 1) t with
      | none => none
      | some (content, rest) =>
        match jsonWsSkip rest with
        | ',' :: t2 => (jsonElems fuel (jsonWsSkip t2)).map
            (fun p => ((⟨content⟩ : String) :: p.1, p.2))
        | ']' :: t2 => some ([(⟨content⟩ : String)], t2)
        | _ => none
    | _ => none

/-- `JSON.parse` restricted to arrays of strings — the shape the source
documents for `outcomes` / `outcomePrices` (`"[\"Yes\", \"No\"]"`).  Any
other JSON yields `none`; in the source a successful parse to a non-array
falls through the `length > 0` branches and is rejected at the `prob === 0`
gate, so record acceptance and output are unchanged by this restriction
(only the console-only skip counters could differ). -/
def jsonParseStringArray (s : String) : Option (List String) :=
  match jsonWsSkip s.data with
  | '[' :: t =>
    match jsonWsSkip t with
    | ']' :: t2 => if jsonWsSkip t2 = [] then some [] else none
    | t1 =>
      match jsonElems (t1.length + 1) t1 with
      | some (elems, rest) => if jsonWsSkip rest = [] then some elems else none
      | none => none
  | _ => none

/-! ## Data model and the processor -/

/-- A field that may be absent, a JSON-encoded string, or an already-parsed
array of strings (the `string | string[] | undefined` union of the source). -/
inductive JsonField where
  | absent
  | str (s : String)
  | arr (l : List String)
deriving DecidableEq

/-- The fields of a raw Gamma-API market record read by the processing
pipeline.  The source interface declares further fields (id, slug, dates,
flags, tags, token ids); none of them is read by the embedded functions.
A JSON `null` array element is not representable here, so the `!event` part
of the source guard collapses into the retained `!event.question` guard. -/
structure PolymarketEvent where
  question : Option String
  description : Option String
  outcomes : JsonField
  outcomePrices : JsonField
  volume : Option String
deriving DecidableEq

/-- The normalized prediction produced per accepted record.  The optional
`ticker` and `priceTarget` fields of the source record are produced by
`extractTicker` / `extractPriceTarget`, which no verified claim mentions;
they are omitted from the embedding. -/
structure PredictionEvent where
  event : String
  prob : ℚ
  category : String
  confidence : String
  source : String
  timeframe : Option String
  signal : String
deriving DecidableEq

/-- `if (event.outcomes)` + parse: absent and the empty string are falsy;
a JSON parse failure on labels is tolerated (labels stay empty). -/
def parseOutcomesField : JsonField → List String
  | .absent => []
  | .str s => if s = "" then [] else (jsonParseStringArray s).getD []
  | .arr l => l

/-- `if (event.outcomePrices)` + parse: a JSON parse failure on prices is a
hard reject (`none`). -/
def parsePricesField : JsonField → Option (List String)
  | .absent => some []
  | .str s => if s = "" then some [] else jsonParseStringArray s
  | .arr l => some l

/-- `parseFloat(event.volume || "0") < 5000`: the volume gate.  Absent and
empty-string volumes fall back to `"0"`; a NaN parse (`none`) makes the
comparison false, so the record passes the gate. -/
def volumeGateRejects (volume : Option String) : Bool :=
  match jsParseFloat (match volume with
    | none => "0"
    | some s => if s = "" then "0" else s) with
  | none => false
  | some x => decide (x < 5000)

/-- Probability resolution: with labels and prices both non-empty, the price
at the first case-insensitive `"yes"` label (index 0 when none; an
out-of-range read is `undefined`, which parses to NaN); with only prices,
`prices[0]`; otherwise the initial `prob = 0`. -/
def probResolve (outcomes prices : List String) : Option ℚ :=
  if outcomes.length > 0 ∧ prices.length > 0 then
    match prices.get? (match outcomes.findIdx? (fun o => jsToLower o == "yes") with
      | some i => i
      | none => 0) with
    | some pstr => jsParseFloat pstr
    | none => none
  else if prices.length > 0 then
    match prices.get? 0 with
    | some pstr => jsParseFloat pstr
    | none => none
  else some 0

/-- `event.description || ""`. -/
def descOf (event : PolymarketEvent) : String :=
  match event.description with
  | none => ""
  | some d => d

/-- The `a || b` fallback on `extractYear` results (a year is never the
falsy 0, so `||` is exactly the none-fallback). -/
def orYear (a b : Option Nat) : Option Nat :=
  match a with
  | some y => some y
  | none => b

/-- One iteration of the processing loop of `processPolymarketEvents`:
`none` means the record is skipped.  The source's skip counters are
console-only diagnostics with no influence on control flow or output and are
not modelled; `extractTicker` / `extractPriceTarget` feed only the omitted
optional fields. -/
def processOne (event : PolymarketEvent) : Option PredictionEvent :=
  match event.question with
  | none => none
  | some q =>
    if q = "" then none
    else if volumeGateRejects event.volume then none
    else
      match orYear (extractYear q) (extractYear (descOf event)) with
      | none => none
      | some year =>
        match parsePricesField event.outcomePrices with
        | none => none
        | some prices =>
          match probResolve (parseOutcomesField event.outcomes) prices with
          | none => none
          | some prob =>
            if prob = 0 then none
            else if categorizeEvent q (descOf event) = "Other" then none
            else some ⟨q, prob, categorizeEvent q (descOf event),
              getConfidence prob, "polymarket",
              some (toString year), determineSignal q prob⟩

/-- `processPolymarketEvents(events)`: the per-record loop, pushing each
accepted record's normalized prediction in input order. -/
def processPolymarketEvents (events : List PolymarketEvent) : List PredictionEvent :=
  events.filterMap processOne

/-! ## Grouping by year -/

/-- Append `p` to the bucket of key `k`, creating the bucket at the end on
first encounter: JavaScript object insertion-order semantics. -/
def bucketPush (tl : List (String × List PredictionEvent)) (k : String)
    (p : PredictionEvent) : List (String × List PredictionEvent) :=
  match tl with
  | [] => [(k, [p])]
  | kv :: rest =>
    if kv.1 = k then (kv.1, kv.2 ++ [p]) :: rest
    else kv :: bucketPush rest k p

/-- The grouping loop of `groupByYear`, before the per-bucket sort: the year
is re-extracted from the event text, and events without one are dropped. -/
def rawGroup (preds : List PredictionEvent) : List (String × List PredictionEvent) :=
  preds.foldl (fun tl p =>
    match extractYear p.event with
    | none => tl
    | some y => bucketPush tl (toString y) p) []

/-- Stable insertion into a descending-by-probability list. -/
def insertDesc (p : PredictionEvent) : List PredictionEvent → List PredictionEvent
  | [] => [p]
  | q :: rest => if q.prob ≤ p.prob then p :: q :: rest else q :: insertDesc p rest

/-- The per-bucket sort `timeline[year].sort((a, b) => b.prob - a.prob)`:
the comparator orders by descending probability and ES2019
`Array.prototype.sort` is stable, so the sorted array is the unique stable
descending reordering, which this insertion sort computes. -/
def sortDesc : List PredictionEvent → List PredictionEvent
  | [] => []
  | p :: rest => insertDesc p (sortDesc rest)

/-- `groupByYear(predictions)`: group by re-extracted year (insertion-ordered
keys), then sort every bucket by descending probability. -/
def groupByYear (preds : List PredictionEvent) :
    List (String × List PredictionEvent) :=
  (rawGroup preds).map (fun kv => (kv.1, sortDesc kv.2))

/-- Bucket lookup: the value at the first (unique) entry of the key, `[]`
when the key is absent. -/
def getBucket (k : String) (tl : List (String × List PredictionEvent)) :
    List PredictionEvent :=
  match tl.find? (fun kv => kv.1 == k) with
  | some kv => kv.2
  | none => []

/-! ## Fetch model

`fetchPolymarketEvents` is modelled against a deterministic response
environment: the response the network delivers for a request at a given
offset and per-page attempt index.  The sleeps (Retry-After or exponential
backoff, and the fixed inter-page delay) only pace the requests and carry no
data, so they do not appear in the model. -/

/-- One HTTP response: a 429 (with the parsed `Retry-After` when present), a
thrown failure (a non-2xx status throwing `Polymarket API error`, a network
error from `fetch`, a `response.json()` failure, or a non-array body making
the array spread throw — all reach the same `catch`), or success with a JSON
array of records. -/
inductive ApiResponse where
  | rateLimited (retryAfterSec : Option Nat)
  | failure
  | ok (data : List PolymarketEvent)
deriving DecidableEq

/-- A deterministic response environment. -/
def Env : Type := Nat → Nat → ApiResponse

/-- The outcome of one page's attempt loop. -/
inductive PageOutcome where
  | gotData (d : List PolymarketEvent)
  | endOfData
  | abort
  | skip
deriving DecidableEq

/-- The attempt loop (`for (attempt = 0; attempt < retries; attempt++)`) at
one offset; `remaining` counts the attempts still available, so the current
attempt index is `retries - remaining`.  A 429 sleeps and `continue`s
(consuming the attempt); a thrown failure on the last attempt returns the
accumulated records (`abort`), on an earlier attempt sleeps and retries;
success breaks with the data (`gotData`) or ends the whole fetch on an empty
page (`endOfData`).  When the loop exhausts its attempts without a success
or an abort — only possible through 429 responses — control falls through to
the next page (`skip`). -/
def fetchPage (env : Env) (offsetv retries : Nat) : Nat → PageOutcome
  | 0 => .skip
  | remaining + 1 =>
    match env offsetv (retries - (remaining + 1)) with
    | .rateLimited _ => fetchPage env offsetv retries remaining
    | .failure =>
      if remaining = 0 then .abort else fetchPage env offsetv retries remaining
    | .ok [] => .endOfData
    | .ok (d :: ds) => .gotData (d :: ds)

/-- The pagination loop (`while (allMarkets.length < maxMarkets)`), fuelled:
`none` models non-termination (the real loop can spin forever when every
page keeps being skipped), never a thrown exception — every throwing
statement of the body sits inside the `try`, and the `catch` returns
normally, which is why the result type carries no error case. -/
def fetchLoop (env : Env) (maxMarkets limitv retries : Nat) :
    Nat → List PolymarketEvent → Nat → Option (List PolymarketEvent)
  | 0, _, _ => none
  | fuel + 1, acc, offsetv =>
    if acc.length < maxMarkets then
      match fetchPage env offsetv retries retries with
      | .gotData d =>
        fetchLoop env maxMarkets limitv retries fuel (acc ++ d) (offsetv + limitv)
      | .endOfData => some acc
      | .abort => some acc
      | .skip => fetchLoop env maxMarkets limitv retries fuel acc (offsetv + limitv)
    else some (acc.take maxMarkets)

/-- `fetchPolymarketEvents(maxMarkets, retries, retryDelay)` against a
response environment; the page size is the fixed `limit = 100`, the cursor
starts at offset 0 with an empty accumulator. -/
def fetchPolymarketEvents (env : Env) (maxMarkets retries fuel : Nat) :
    Option (List PolymarketEvent) :=
  fetchLoop env maxMarkets 100 retries fuel [] 0

/-! ## Spec-side definitions and derived notions -/

/-- The spec's independent description of `categorizeEvent`: lower-case the
concatenation of title and description, test the six keyword sets in
declaration order, return the first category with any substring hit, else
`"Other"` (stated with `List.find?` rather than the source's loop). -/
def specCategorize (title description : String) : String :=
  let text := jsToLower (title ++ " " ++ description)
  match categories.find? (fun ck => ck.2.any (fun kw => jsIncludes text kw)) with
  | some ck => ck.1
  | none => "Other"

/-- The year key `groupByYear` derives for an event, when its text still
yields one. -/
def keyOf (p : PredictionEvent) : Option String :=
  (extractYear p.event).map (fun y => toString y)

instance : Inhabited PredictionEvent :=
  ⟨⟨"", 0, "", "", "", none, ""⟩⟩


/-! ## Theorems -/

/-! ## Lemmas: `extractYear` on digit-only four-character texts -/


theorem ciStarts_cons_none {k c : Char} {ks cs : List Char}
    (h : (asciiLower c == asciiLower k) = false) :
    ciStarts (k :: ks) (c :: cs) = none := by
  simp [ciStarts, h]

theorem scanFirst_kwYear_none {k : Char} {ks : List Char} {s : List Char}
    (h : ∀ c ∈ s, (asciiLower c == asciiLower k) = false) :
    scanFirst (kwYearAt (k :: ks)) s = none := by
  induction s with
  | nil => simp [scanFirst, kwYearAt, ciStarts]
  | cons c cs ih =>
    have hc := h c (List.mem_cons_self c cs)
    simp [scanFirst, kwYearAt, ciStarts_cons_none hc,
      ih (fun x hx => h x (List.mem_cons_of_mem c hx))]

theorem scanFirst_cons (m : List Char → Option Nat) (c : Char) (cs : List Char) :
    scanFirst m (c :: cs) =
      (match m (c :: cs) with | some y => some y | none => scanFirst m cs) := rfl

theorem scanFirst_qYear_none {s : List Char}
    (h : ∀ c ∈ s, ¬(asciiLower c = 'q')) :
    scanFirst qYearAt s = none := by
  induction s with
  | nil => simp [scanFirst, qYearAt]
  | cons c cs ih =>
    have hc := h c (List.mem_cons_self c cs)
    have hq : qYearAt (c :: cs) = none := by
      cases cs <;> simp [qYearAt, hc]
    rw [scanFirst_cons, hq]
    exact ih (fun x hx => h x (List.mem_cons_of_mem c hx))



theorem altKwYearAt_none {kws : List (List Char)} {allowDot : Bool} {s : List Char}
    (h : ∀ kw ∈ kws, ∃ k ks, kw = k :: ks ∧
      ∀ c, s.head? = some c → (asciiLower c == asciiLower k) = false) :
    altKwYearAt kws allowDot s = none := by
  induction kws with
  | nil => rfl
  | cons kw rest ih =>
    obtain ⟨k, ks, rfl, hk⟩ := h kw (List.mem_cons_self kw rest)
    have hci : ciStarts (k :: ks) s = none := by
      cases s with
      | nil => rfl
      | cons c cs => exact ciStarts_cons_none (hk c rfl)
    simp [altKwYearAt, hci, ih (fun kw hkw => h kw (List.mem_cons_of_mem _ hkw))]

theorem scanFirst_altKw_none {kws : List (List Char)} {allowDot : Bool} {s : List Char}
    (h : ∀ kw ∈ kws, ∃ k ks, kw = k :: ks ∧
      ∀ c ∈ s, (asciiLower c == asciiLower k) = false) :
    scanFirst (altKwYearAt kws allowDot) s = none := by
  induction s with
  | nil =>
    have hnil : altKwYearAt kws allowDot ([] : List Char) = none :=
      altKwYearAt_none (fun kw hkw => by
        obtain ⟨k, ks, rfl, -⟩ := h kw hkw
        exact ⟨k, ks, rfl, fun c hc => by simp at hc⟩)
    simp [scanFirst, hnil]
  | cons c cs ihs =>
    have hat : altKwYearAt kws allowDot (c :: cs) = none :=
      altKwYearAt_none (fun kw hkw => by
        obtain ⟨k, ks, rfl, hk⟩ := h kw hkw
        refine ⟨k, ks, rfl, fun x hx => ?_⟩
        simp only [List.head?_cons, Option.some.injEq] at hx
        exact hx ▸ hk c (List.mem_cons_self c cs))
    rw [scanFirst_cons, hat]
    refine ihs (fun kw hkw => ?_)
    obtain ⟨k, ks, rfl, hk⟩ := h kw hkw
    exact ⟨k, ks, rfl, fun x hx => hk x (List.mem_cons_of_mem c hx)⟩

theorem yearFrom_four (A B C D : Char) :
    yearFrom [A, B, C, D] =
      if A == '2' && B == '0' &&
          ((C == '2' && ('5' ≤ D && D ≤ '9')) || (C == '3' && D.isDigit)) then
        some (2000 + 10 * (C.toNat - 48) + (D.toNat - 48), ([] : List Char))
      else none := rfl

theorem bareYearScan_four (A B C D : Char) :
    bareYearScan none [A, B, C, D] = (yearFrom [A, B, C, D]).map Prod.fst := by
  cases h : yearFrom [A, B, C, D] with
  | none =>
    simp only [bareYearScan, h]
    simp [yearFrom, bareYearScan]
  | some p =>
    obtain ⟨y, r⟩ := p
    have hr : r = [] := by
      rw [yearFrom_four] at h
      split at h
      · simp_all
      · simp_all
    subst hr
    simp [bareYearScan, h]



theorem digitChar_isDigit : ∀ x < 10, (Nat.digitChar x).isDigit = true := by decide

theorem digitChar_head_mismatch : ∀ x < 10,
    ∀ k ∈ (['b', 'i', 'a', 'q', 'j', 'f', 'm', 's', 'o', 'n', 'd'] : List Char),
      (asciiLower (Nat.digitChar x) == asciiLower k) = false := by decide

theorem digitChar_beq_two : ∀ x < 10, (Nat.digitChar x == '2') = decide (x = 2) := by decide

theorem digitChar_beq_zero : ∀ x < 10, (Nat.digitChar x == '0') = decide (x = 0) := by decide

theorem digitChar_beq_three : ∀ x < 10, (Nat.digitChar x == '3') = decide (x = 3) := by decide

theorem digitChar_ge_five : ∀ x < 10, decide ('5' ≤ Nat.digitChar x) = decide (5 ≤ x) := by decide

theorem digitChar_le_nine : ∀ x < 10, decide (Nat.digitChar x ≤ '9') = true := by decide

theorem digitChar_toNat : ∀ x < 10, (Nat.digitChar x).toNat = 48 + x := by decide

theorem extractYear_digits (a b c d : Nat)
    (ha : a < 10) (hb : b < 10) (hc : c < 10) (hd : d < 10) :
    extractYear ⟨[Nat.digitChar a, Nat.digitChar b, Nat.digitChar c, Nat.digitChar d]⟩ =
      if 2025 ≤ 1000 * a + 100 * b + 10 * c + d ∧ 1000 * a + 100 * b + 10 * c + d ≤ 2039 then
        some (1000 * a + 100 * b + 10 * c + d)
      else none := by
  have hyf : yearFrom [Nat.digitChar a, Nat.digitChar b, Nat.digitChar c, Nat.digitChar d] =
      if a = 2 ∧ b = 0 ∧ (c = 2 ∧ 5 ≤ d ∨ c = 3) then
        some (2000 + 10 * c + d, ([] : List Char))
      else none := by
    rw [yearFrom_four, digitChar_beq_two a ha, digitChar_beq_zero b hb,
      digitChar_beq_two c hc, digitChar_ge_five d hd, digitChar_le_nine d hd,
      digitChar_beq_three c hc, digitChar_isDigit d hd,
      digitChar_toNat c hc, digitChar_toNat d hd]
    simp only [Nat.add_sub_cancel_left, Bool.and_true]
    split_ifs with h1 h2 h2 <;> simp_all
  have hbare : bareYearScan none
        [Nat.digitChar a, Nat.digitChar b, Nat.digitChar c, Nat.digitChar d] =
      if a = 2 ∧ b = 0 ∧ (c = 2 ∧ 5 ≤ d ∨ c = 3) then
        some (2000 + 10 * c + d)
      else none := by
    rw [bareYearScan_four, hyf]
    split_ifs <;> rfl
  have hmm : ∀ x ∈ [Nat.digitChar a, Nat.digitChar b, Nat.digitChar c, Nat.digitChar d],
      ∀ k ∈ (['b', 'i', 'a', 'q', 'j', 'f', 'm', 's', 'o', 'n', 'd'] : List Char),
        (asciiLower x == asciiLower k) = false := by
    intro x hx
    fin_cases hx
    · exact digitChar_head_mismatch a ha
    · exact digitChar_head_mismatch b hb
    · exact digitChar_head_mismatch c hc
    · exact digitChar_head_mismatch d hd
  have hby : scanFirst (kwYearAt "by".data)
      [Nat.digitChar a, Nat.digitChar b, Nat.digitChar c, Nat.digitChar d] = none :=
    @scanFirst_kwYear_none 'b' "y".data _
      (fun x hx => hmm x hx 'b' (by decide))
  have hin : scanFirst (kwYearAt "in".data)
      [Nat.digitChar a, Nat.digitChar b, Nat.digitChar c, Nat.digitChar d] = none :=
    @scanFirst_kwYear_none 'i' "n".data _
      (fun x hx => hmm x hx 'i' (by decide))
  have hbefore : scanFirst (kwYearAt "before".data)
      [Nat.digitChar a, Nat.digitChar b, Nat.digitChar c, Nat.digitChar d] = none :=
    @scanFirst_kwYear_none 'b' "efore".data _
      (fun x hx => hmm x hx 'b' (by decide))
  have hafter : scanFirst (kwYearAt "after".data)
      [Nat.digitChar a, Nat.digitChar b, Nat.digitChar c, Nat.digitChar d] = none :=
    @scanFirst_kwYear_none 'a' "fter".data _
      (fun x hx => hmm x hx 'a' (by decide))
  have hq : scanFirst qYearAt
      [Nat.digitChar a, Nat.digitChar b, Nat.digitChar c, Nat.digitChar d] = none :=
    scanFirst_qYear_none (fun x hx => by
      have h := hmm x hx 'q' (by decide)
      rw [show asciiLower 'q' = 'q' from rfl] at h
      exact beq_eq_false_iff_ne.mp h)
  have halt1 : scanFirst (altKwYearAt fullMonths false)
      [Nat.digitChar a, Nat.digitChar b, Nat.digitChar c, Nat.digitChar d] = none :=
    scanFirst_altKw_none (fun kw hkw => by
      fin_cases hkw <;> exact ⟨_, _, rfl, fun x hx => hmm x hx _ (by decide)⟩)
  have halt2 : scanFirst (altKwYearAt abbrevMonths true)
      [Nat.digitChar a, Nat.digitChar b, Nat.digitChar c, Nat.digitChar d] = none :=
    scanFirst_altKw_none (fun kw hkw => by
      fin_cases hkw <;> exact ⟨_, _, rfl, fun x hx => hmm x hx _ (by decide)⟩)
  show runMatchers yearMatchers [Nat.digitChar a, Nat.digitChar b, Nat.digitChar c,
    Nat.digitChar d] = _
  by_cases hcond : a = 2 ∧ b = 0 ∧ (c = 2 ∧ 5 ≤ d ∨ c = 3)
  · have hr1 : 2025 ≤ 2000 + 10 * c + d ∧ 2000 + 10 * c + d ≤ 2040 := by omega
    have hr2 : 2025 ≤ 1000 * a + 100 * b + 10 * c + d ∧
        1000 * a + 100 * b + 10 * c + d ≤ 2039 := by omega
    simp only [yearMatchers, runMatchers, hbare, if_pos hcond, if_pos hr1, if_pos hr2]
    congr 1
    omega
  · have hr2 : ¬(2025 ≤ 1000 * a + 100 * b + 10 * c + d ∧
        1000 * a + 100 * b + 10 * c + d ≤ 2039) := by omega
    simp only [yearMatchers, runMatchers, hbare, if_neg hcond, hby, hin, hbefore,
      hafter, hq, halt1, halt2, if_neg hr2]
/-! ## Claim theorems: categories, signals, year extraction, volume gate -/

theorem firstHit_eq_find (text : String) (l : List (String × List String)) :
    firstHit text l =
      (match l.find? (fun ck => ck.2.any (fun kw => jsIncludes text kw)) with
        | some ck => ck.1
        | none => "Other") := by
  induction l with
  | nil => rfl
  | cons ck rest ih =>
    by_cases h : ck.2.any (fun kw => jsIncludes text kw) = true
    · simp [firstHit, List.find?, h]
    · simp only [Bool.not_eq_true] at h
      simp [firstHit, List.find?, h, ih]

/-- C9: `categorizeEvent` returns the first category, in the fixed
declaration order Equities, Commodities, Crypto, Indices, Forex, Economy,
whose keyword set has a substring hit in the lower-cased concatenation of
title and description, and `"Other"` when none hits; in particular a text
hitting no Equities keyword that contains `"gold"` (e.g. alongside
`"bitcoin"`) resolves to `"Commodities"`. -/
theorem C9_categorizeEvent_first_hit (title description : String) :
    categorizeEvent title description = specCategorize title description ∧
    (categories.headI.2.any
        (fun kw => jsIncludes (jsToLower (title ++ " " ++ description)) kw) = false →
      jsIncludes (jsToLower (title ++ " " ++ description)) "gold" = true →
      categorizeEvent title description = "Commodities") := by
  constructor
  · exact firstHit_eq_find _ categories
  · intro hEq hGold
    have hhit : (["gold", "silver", "oil", "crude", "copper", "platinum",
        "commodity", "wheat", "corn", "natural gas", "wti", "brent"] : List String).any
          (fun kw => jsIncludes (jsToLower (title ++ " " ++ description)) kw) = true :=
      List.any_eq_true.mpr ⟨"gold", by decide, hGold⟩
    simp only [categories, List.headI] at hEq
    simp [categorizeEvent, categories, firstHit, hEq, hhit]

theorem C9_witness : categorizeEvent "bitcoin" "gold" = "Commodities" :=
  (C9_categorizeEvent_first_hit "bitcoin" "gold").2 (by decide) (by decide)

/-- C6: with only bearish phrasing, `determineSignal` is `"bearish"` above
0.6 and `"bullish"` below 0.4; with only bullish phrasing, `"bullish"` above
0.6 and `"bearish"` below 0.4; and it is `"neutral"` whenever the
probability lies in [0.4, 0.6] or the question matches no phrasing word. -/
theorem C6_determineSignal_thresholds (q : String) (p : ℚ) :
    (isBearishQuestion q = true → isBullishQuestion q = false →
      (p > 0.6 → determineSignal q p = "bearish") ∧
      (p < 0.4 → determineSignal q p = "bullish")) ∧
    (isBullishQuestion q = true → isBearishQuestion q = false →
      (p > 0.6 → determineSignal q p = "bullish") ∧
      (p < 0.4 → determineSignal q p = "bearish")) ∧
    (0.4 ≤ p → p ≤ 0.6 → determineSignal q p = "neutral") ∧
    (isBearishQuestion q = false → isBullishQuestion q = false →
      determineSignal q p = "neutral") := by
  refine ⟨fun hbear hbull => ⟨fun hp => ?_, fun hp => ?_⟩,
    fun hbull hbear => ⟨fun hp => ?_, fun hp => ?_⟩,
    fun h1 h2 => ?_, fun hbear hbull => ?_⟩
  · simp [determineSignal, hbear, hp]
  · have hnp : ¬(p > 0.6) := by linarith
    simp [determineSignal, hbear, hbull, hp, hnp]
  · simp [determineSignal, hbear, hbull, hp]
  · have hnp : ¬(p > 0.6) := by linarith
    simp [determineSignal, hbear, hbull, hp, hnp]
  · have hnp : ¬(p > 0.6) := by linarith
    have hnq : ¬(p < 0.4) := by linarith
    simp [determineSignal, hnp, hnq]
  · simp [determineSignal, hbear, hbull]

theorem C6_witness :
    determineSignal "Will BTC fall below $50k" 0.8 = "bearish" ∧
    determineSignal "Will BTC rise above $50k" 0.2 = "bearish" ∧
    determineSignal "Will BTC rise above $50k" 0.5 = "neutral" :=
  ⟨((C6_determineSignal_thresholds "Will BTC fall below $50k" 0.8).1
      (by decide) (by decide)).1 (by norm_num),
    ((C6_determineSignal_thresholds "Will BTC rise above $50k" 0.2).2.1
      (by decide) (by decide)).2 (by norm_num),
    (C6_determineSignal_thresholds "Will BTC rise above $50k" 0.5).2.2.1
      (by norm_num) (by norm_num)⟩

/-- C10: when a question contains both a bearish and a bullish word, the
bearish-phrasing rules are checked first: above 0.6 the signal is
`"bearish"`, below 0.4 it is `"bullish"`. -/
theorem C10_bearish_precedence (q : String) (p : ℚ)
    (hbear : isBearishQuestion q = true) (hbull : isBullishQuestion q = true) :
    (p > 0.6 → determineSignal q p = "bearish") ∧
    (p < 0.4 → determineSignal q p = "bullish") := by
  refine ⟨fun hp => ?_, fun hp => ?_⟩
  · simp [determineSignal, hbear, hp]
  · have hnp : ¬(p > 0.6) := by linarith
    simp [determineSignal, hbear, hbull, hp, hnp]

theorem C10_witness :
    determineSignal "Will BTC fall below or rise above $50k?" 0.7 = "bearish" ∧
    determineSignal "Will BTC fall below or rise above $50k?" 0.2 = "bullish" :=
  ⟨(C10_bearish_precedence "Will BTC fall below or rise above $50k?" 0.7
      (by decide) (by decide)).1 (by norm_num),
    (C10_bearish_precedence "Will BTC fall below or rise above $50k?" 0.2
      (by decide) (by decide)).2 (by norm_num)⟩

/-- C3 counterexample: the claim asserts a text containing only the bare
year 2040 yields 2040; the year group `(202[5-9]|203[0-9])` cannot match
2040, so `extractYear` yields `none` there. -/
theorem C3_counterexample :
    extractYear "2040" ≠ some 2040 ∧ extractYear "2040" = none := by decide

/-- C3 (amended): for a text that is exactly a bare 4-digit year
`y = 1000a + 100b + 10c + d`, `extractYear` returns `y` when
`2025 ≤ y ≤ 2039` and `none` when `y` is outside `[2025, 2039]` — the upper
bound is 2039, not the claimed 2040, because the year group of every pattern
is `(202[5-9]|203[0-9])`. -/
theorem C3_extractYear_bare_year (a b c d y : Nat)
    (ha : a < 10) (hb : b < 10) (hc : c < 10) (hd : d < 10) (hlead : 1 ≤ a)
    (hy : y = 1000 * a + 100 * b + 10 * c + d) :
    extractYear ⟨[a.digitChar, b.digitChar, c.digitChar, d.digitChar]⟩ =
      if 2025 ≤ y ∧ y ≤ 2039 then some y else none := by
  subst hy
  exact extractYear_digits a b c d ha hb hc hd

theorem C3_witness :
    extractYear ⟨[Nat.digitChar 2, Nat.digitChar 0, Nat.digitChar 3, Nat.digitChar 9]⟩ =
      (if 2025 ≤ 2039 ∧ 2039 ≤ 2039 then some 2039 else none) ∧
    extractYear ⟨[Nat.digitChar 2, Nat.digitChar 0, Nat.digitChar 4, Nat.digitChar 0]⟩ =
      (if 2025 ≤ 2040 ∧ 2040 ≤ 2039 then some 2040 else none) :=
  ⟨C3_extractYear_bare_year 2 0 3 9 2039 (by decide) (by decide) (by decide)
      (by decide) (by decide) (by decide),
    C3_extractYear_bare_year 2 0 4 0 2040 (by decide) (by decide) (by decide)
      (by decide) (by decide) (by decide)⟩

/-- C4 counterexample: the claim asserts a record with an unparseable volume
field is rejected (volume treated as 0); in the source
`parseFloat("abc")` is NaN, `NaN < 5000` is false, and the record passes the
volume gate — here it flows through to an accepted prediction. -/
theorem C4_counterexample :
    volumeGateRejects (some "abc") = false ∧
    (processPolymarketEvents
      [⟨some "Will bitcoin crash in 2026?", none, JsonField.arr ["Yes", "No"],
        JsonField.arr ["0.5", "0.5"], some "abc"⟩]).length = 1 := by
  constructor
  · decide
  · decide

/-- C4 (amended): the volume gate rejects exactly when
`parseFloat(volume || "0") < 5000`: an absent (or empty) volume falls back
to `"0"` and is rejected, `"4999"` is rejected, `"5000"` passes, and a
non-empty unparseable volume parses to NaN, which is not `< 5000`, so the
record passes the gate. -/
theorem C4_volume_gate (s : String) (q : ℚ) :
    volumeGateRejects none = true ∧
    volumeGateRejects (some "4999") = true ∧
    volumeGateRejects (some "5000") = false ∧
    (s ≠ "" → jsParseFloat s = none → volumeGateRejects (some s) = false) ∧
    (s ≠ "" → jsParseFloat s = some q →
      (volumeGateRejects (some s) = true ↔ q < 5000)) := by
  refine ⟨by decide, by decide, by decide, fun hs hn => ?_, fun hs hq => ?_⟩
  · simp [volumeGateRejects, hs, hn]
  · simp [volumeGateRejects, hs, hq]

theorem C4_witness :
    (volumeGateRejects (some "4999") = true ↔ (4999 : ℚ) < 5000) ∧
    volumeGateRejects (some "xyz") = false :=
  ⟨(C4_volume_gate "4999" 4999).2.2.2.2 (by decide) (by decide),
    (C4_volume_gate "xyz" 0).2.2.2.1 (by decide) (by decide)⟩

/-! ## Claim theorems: probability resolution and probability range -/

/-- C5: the probability-resolution rule of the processor. -/
theorem C5_probability_resolution (outcomes prices : List String) (i : Nat)
    (pstr : String) :
    (outcomes ≠ [] → prices ≠ [] →
      ((outcomes.findIdx? (fun o => jsToLower o == "yes") = some i →
          prices.get? i = some pstr →
          probResolve outcomes prices = jsParseFloat pstr) ∧
        (outcomes.findIdx? (fun o => jsToLower o == "yes") = none →
          prices.get? 0 = some pstr →
          probResolve outcomes prices = jsParseFloat pstr))) ∧
    (outcomes = [] → prices.get? 0 = some pstr →
      probResolve outcomes prices = jsParseFloat pstr) ∧
    ((processPolymarketEvents
      [⟨some "Will bitcoin rally in 2026?", none, JsonField.arr ["Yes", "No"],
        JsonField.arr ["0.73", "0.27"], some "9999"⟩]).map (fun p => p.prob) =
      [Rat.divInt 73 100]) ∧
    ((processPolymarketEvents
      [⟨some "Will bitcoin rally in 2026?", none, JsonField.absent,
        JsonField.arr ["0.4"], some "9999"⟩]).map (fun p => p.prob) =
      [Rat.divInt 4 10]) := by
  refine ⟨fun ho hp => ⟨fun hidx hget => ?_, fun hidx hget => ?_⟩,
    fun ho hget => ?_, by decide, by decide⟩
  · have hcond : outcomes.length > 0 ∧ prices.length > 0 :=
      ⟨List.length_pos.mpr ho, List.length_pos.mpr hp⟩
    simp only [probResolve, if_pos hcond, hidx, hget]
  · have hcond : outcomes.length > 0 ∧ prices.length > 0 :=
      ⟨List.length_pos.mpr ho, List.length_pos.mpr hp⟩
    simp only [probResolve, if_pos hcond, hidx, hget]
  · subst ho
    have hp : prices.length > 0 := by
      cases prices with
      | nil => simp at hget
      | cons a t => simp
    simp only [probResolve]
    rw [if_neg (by simp), if_pos hp, hget]

theorem C5_witness :
    probResolve ["Yes", "No"] ["0.73", "0.27"] = jsParseFloat "0.73" ∧
    probResolve [] ["0.4"] = jsParseFloat "0.4" :=
  ⟨((C5_probability_resolution ["Yes", "No"] ["0.73", "0.27"] 0 "0.73").1
      (by decide) (by decide)).1 (by decide) (by decide),
    (C5_probability_resolution [] ["0.4"] 0 "0.4").2.1 rfl (by decide)⟩

theorem probResolve_eq_some {outcomes prices : List String} {q : ℚ}
    (h : probResolve outcomes prices = some q) :
    q = 0 ∨ ∃ s ∈ prices, jsParseFloat s = some q := by
  unfold probResolve at h
  split_ifs at h
  · split at h
    · exact Or.inr ⟨_, List.get?_mem (by assumption), h⟩
    · exact absurd h (by simp)
  · split at h
    · exact Or.inr ⟨_, List.get?_mem (by assumption), h⟩
    · exact absurd h (by simp)
  · exact Or.inl (by injection h with h; exact h.symm)

theorem processOne_eq_some {e : PolymarketEvent} {p : PredictionEvent}
    (h : processOne e = some p) :
    ∃ prices q, parsePricesField e.outcomePrices = some prices ∧
      probResolve (parseOutcomesField e.outcomes) prices = some q ∧
      q ≠ 0 ∧ p.prob = q := by
  unfold processOne at h
  split at h
  · exact absurd h (by simp)
  · split at h
    · exact absurd h (by simp)
    · split at h
      · exact absurd h (by simp)
      · split at h
        · exact absurd h (by simp)
        · split at h
          · exact absurd h (by simp)
          · split at h
            · exact absurd h (by simp)
            · split at h
              · exact absurd h (by simp)
              · split at h
                · exact absurd h (by simp)
                · refine ⟨_, _, by assumption, by assumption, by assumption, ?_⟩
                  injection h with h
                  subst h
                  rfl

theorem headI_mem_of_ne_nil {α : Type} [Inhabited α] {l : List α} (h : l ≠ []) :
    l.headI ∈ l := by
  cases l with
  | nil => exact absurd rfl h
  | cons a t => exact List.mem_cons_self a t

/-- C7 counterexample: the claim asserts every produced probability lies in
[0, 1]; nothing in the processor clamps the parsed price, so a record whose
only price is "2.5" produces a prediction with probability 5/2. -/
theorem C7_counterexample :
    (processPolymarketEvents
      [⟨some "Will bitcoin crash in 2026?", none, JsonField.absent,
        JsonField.arr ["2.5"], some "9999"⟩]).map (fun p => p.prob) =
      [Rat.divInt 25 10] ∧
    ¬ (Rat.divInt 25 10 ≤ 1) := by decide

/-- C7 (amended): provided every outcome price of every input record that
parses at all parses to a value in [0, 1], each produced prediction's
probability lies in [0, 1] (the processor takes probabilities verbatim from
parsed prices, rejecting only NaN and exact 0, so the bound needs this
precondition on the raw data — which the market API guarantees for its
prices). -/
theorem C7_probability_in_unit_interval (events : List PolymarketEvent)
    (hprices : events.all (fun e =>
      match parsePricesField e.outcomePrices with
      | none => true
      | some l => l.all (fun s =>
        match jsParseFloat s with
        | none => true
        | some q => decide (0 ≤ q ∧ q ≤ 1))) = true) :
    ∀ p ∈ processPolymarketEvents events, 0 ≤ p.prob ∧ p.prob ≤ 1 := by
  intro p hp
  obtain ⟨e, he, hpe⟩ := List.mem_filterMap.mp hp
  obtain ⟨prices, q, hpf, hpr, hq0, hpq⟩ := processOne_eq_some hpe
  rcases probResolve_eq_some hpr with h0 | ⟨s, hs, hparse⟩
  · exact absurd h0 hq0
  · have hall := List.all_eq_true.mp hprices e he
    rw [hpf] at hall
    have hone := List.all_eq_true.mp hall s hs
    rw [hparse] at hone
    rw [hpq]
    exact of_decide_eq_true hone

theorem C7_witness :
    0 ≤ ((processPolymarketEvents
      [⟨some "Will bitcoin crash in 2026?", none, JsonField.arr ["Yes", "No"],
        JsonField.arr ["0.5", "0.5"], some "9999"⟩]).headI).prob ∧
    ((processPolymarketEvents
      [⟨some "Will bitcoin crash in 2026?", none, JsonField.arr ["Yes", "No"],
        JsonField.arr ["0.5", "0.5"], some "9999"⟩]).headI).prob ≤ 1 :=
  C7_probability_in_unit_interval _ (by decide) _ (headI_mem_of_ne_nil (by decide))

/-! ## Claim theorems: grouping, bucket sort order and stability -/

theorem mem_insertDesc {x p : PredictionEvent} {l : List PredictionEvent} :
    x ∈ insertDesc p l ↔ x = p ∨ x ∈ l := by
  induction l with
  | nil => simp [insertDesc]
  | cons y ys ih =>
    by_cases h : y.prob ≤ p.prob
    · simp [insertDesc, h]
    · simp [insertDesc, h, ih]
      tauto

theorem insertDesc_pairwise {p : PredictionEvent} {l : List PredictionEvent}
    (hl : l.Pairwise (fun a b => b.prob ≤ a.prob)) :
    (insertDesc p l).Pairwise (fun a b => b.prob ≤ a.prob) := by
  induction l with
  | nil => simp [insertDesc]
  | cons y ys ih =>
    rcases List.pairwise_cons.mp hl with ⟨hy, hys⟩
    by_cases h : y.prob ≤ p.prob
    · simp only [insertDesc, if_pos h]
      refine List.pairwise_cons.mpr ⟨?_, hl⟩
      intro z hz
      rcases List.mem_cons.mp hz with rfl | hz
      · exact h
      · exact le_trans (hy z hz) h
    · simp only [insertDesc, if_neg h]
      refine List.pairwise_cons.mpr ⟨?_, ih hys⟩
      intro z hz
      rcases mem_insertDesc.mp hz with rfl | hz
      · exact le_of_lt (lt_of_not_le h)
      · exact hy z hz

theorem sortDesc_pairwise (l : List PredictionEvent) :
    (sortDesc l).Pairwise (fun a b => b.prob ≤ a.prob) := by
  induction l with
  | nil => exact List.Pairwise.nil
  | cons p ps ih => exact insertDesc_pairwise ih

theorem filter_insertDesc (q : ℚ) (p : PredictionEvent) (l : List PredictionEvent) :
    (insertDesc p l).filter (fun e => e.prob == q) =
      if p.prob = q then p :: l.filter (fun e => e.prob == q)
      else l.filter (fun e => e.prob == q) := by
  induction l with
  | nil => by_cases h : p.prob = q <;> simp [insertDesc, List.filter_cons, h]
  | cons y ys ih =>
    by_cases h : y.prob ≤ p.prob
    · simp only [insertDesc, if_pos h, List.filter_cons]
      by_cases hp : p.prob = q <;> simp [hp]
    · have hylt : p.prob < y.prob := lt_of_not_le h
      simp only [insertDesc, if_neg h, List.filter_cons]
      by_cases hp : p.prob = q
      · have hy : (y.prob == q) = false := by
          refine beq_eq_false_iff_ne.mpr ?_
          intro hyq
          exact absurd (hyq ▸ hp ▸ hylt) (lt_irrefl _)
        simp [hy, ih, hp]
      · by_cases hy : y.prob = q <;> simp [hy, ih, hp]

theorem sortDesc_filter (q : ℚ) (l : List PredictionEvent) :
    (sortDesc l).filter (fun e => e.prob == q) = l.filter (fun e => e.prob == q) := by
  induction l with
  | nil => rfl
  | cons p ps ih =>
    rw [sortDesc, filter_insertDesc]
    by_cases hp : p.prob = q <;> simp [List.filter_cons, hp, ih]

theorem getBucket_nil (k : String) : getBucket k [] = [] := rfl

theorem getBucket_cons (kv : String × List PredictionEvent)
    (tl : List (String × List PredictionEvent)) (k : String) :
    getBucket k (kv :: tl) = if kv.1 = k then kv.2 else getBucket k tl := by
  by_cases h : kv.1 = k
  · simp [getBucket, List.find?, h]
  · have hb : (kv.1 == k) = false := beq_eq_false_iff_ne.mpr h
    simp only [getBucket, List.find?, hb, if_neg h]

theorem getBucket_bucketPush (tl : List (String × List PredictionEvent))
    (k k' : String) (p : PredictionEvent) :
    getBucket k (bucketPush tl k' p) =
      if k' = k then getBucket k tl ++ [p] else getBucket k tl := by
  induction tl with
  | nil =>
    by_cases hk : k' = k <;> simp [bucketPush, getBucket_cons, getBucket_nil, hk]
  | cons kv rest ih =>
    show getBucket k (if kv.1 = k' then (kv.1, kv.2 ++ [p]) :: rest
      else kv :: bucketPush rest k' p) = _
    by_cases h1 : kv.1 = k'
    · rw [if_pos h1]
      by_cases h2 : kv.1 = k
      · have hk : k' = k := h1.symm.trans h2
        simp [getBucket_cons, h2, hk]
      · have hk : ¬(k' = k) := fun he => h2 (h1.trans he)
        simp [getBucket_cons, h2, hk]
    · rw [if_neg h1]
      by_cases h2 : kv.1 = k
      · have hk : ¬(k' = k) := fun he => h1 (h2.trans he.symm)
        simp [getBucket_cons, h2, hk]
      · simp [getBucket_cons, h2, ih]

theorem getBucket_rawGroup_gen (preds : List PredictionEvent) :
    ∀ (tl : List (String × List PredictionEvent)) (k : String),
      getBucket k (preds.foldl (fun tl p =>
        match extractYear p.event with
        | none => tl
        | some y => bucketPush tl (toString y) p) tl) =
      getBucket k tl ++ (preds.filter (fun p => keyOf p == some k)) := by
  induction preds with
  | nil => simp
  | cons p ps ih =>
    intro tl k
    rw [List.foldl_cons]
    cases hy : extractYear p.event with
    | none =>
      rw [ih]
      congr 1
      simp [List.filter_cons, keyOf, hy]
    | some y =>
      rw [ih, getBucket_bucketPush]
      by_cases hk : toString y = k
      · simp [hk, List.filter_cons, keyOf, hy, List.append_assoc]
      · simp [hk, List.filter_cons, keyOf, hy]

theorem getBucket_map_sort (tl : List (String × List PredictionEvent)) (k : String) :
    getBucket k (tl.map (fun kv => (kv.1, sortDesc kv.2))) =
      sortDesc (getBucket k tl) := by
  induction tl with
  | nil => simp [getBucket_nil, sortDesc]
  | cons kv rest ih =>
    rw [List.map_cons, getBucket_cons, getBucket_cons]
    by_cases h : kv.1 = k <;> simp [h, ih]

theorem getBucket_groupByYear (preds : List PredictionEvent) (k : String) :
    getBucket k (groupByYear preds) =
      sortDesc (preds.filter (fun p => keyOf p == some k)) := by
  rw [groupByYear, getBucket_map_sort, rawGroup, getBucket_rawGroup_gen]
  simp [getBucket, List.find?]

theorem keys_bucketPush (tl : List (String × List PredictionEvent)) (k : String)
    (p : PredictionEvent) :
    (bucketPush tl k p).map Prod.fst =
      if tl.any (fun kv => kv.1 == k) then tl.map Prod.fst
      else tl.map Prod.fst ++ [k] := by
  induction tl with
  | nil => simp [bucketPush]
  | cons kv rest ih =>
    show (if kv.1 = k then (kv.1, kv.2 ++ [p]) :: rest
      else kv :: bucketPush rest k p).map Prod.fst = _
    by_cases h : kv.1 = k
    · simp [h, List.any_cons]
    · have hb : (kv.1 == k) = false := beq_eq_false_iff_ne.mpr h
      by_cases ha : rest.any (fun kv => kv.1 == k) = true <;>
        simp [h, hb, List.any_cons, ha, ih]

theorem nodup_keys_rawGroup_gen (preds : List PredictionEvent) :
    ∀ (tl : List (String × List PredictionEvent)),
      (tl.map Prod.fst).Nodup →
      ((preds.foldl (fun tl p =>
        match extractYear p.event with
        | none => tl
        | some y => bucketPush tl (toString y) p) tl).map Prod.fst).Nodup := by
  induction preds with
  | nil => exact fun tl h => h
  | cons p ps ih =>
    intro tl htl
    rw [List.foldl_cons]
    cases hy : extractYear p.event with
    | none => exact ih tl htl
    | some y =>
      refine ih _ ?_
      rw [keys_bucketPush]
      by_cases ha : tl.any (fun kv => kv.1 == toString y) = true
      · simpa [ha] using htl
      · have hnot : toString y ∉ tl.map Prod.fst := by
          intro hmem
          rcases List.mem_map.mp hmem with ⟨kv, hkv, hfst⟩
          exact ha (List.any_eq_true.mpr ⟨kv, hkv, by simp [hfst]⟩)
        simp [ha, List.nodup_append, htl, hnot]

theorem keys_groupByYear (preds : List PredictionEvent) :
    (groupByYear preds).map Prod.fst = (rawGroup preds).map Prod.fst := by
  simp [groupByYear, List.map_map]

/-- C8: every year bucket of `groupByYear` is sorted by descending
probability, and the sort is stable: within a bucket, the subsequence at any
fixed probability equals the input-order subsequence of the grouped events
at that probability.  The bucket keys are pairwise distinct, so `getBucket`
reaches every bucket. -/
theorem C8_buckets_sorted_and_stable (preds : List PredictionEvent)
    (k : String) (q : ℚ) :
    ((groupByYear preds).map Prod.fst).Nodup ∧
    (getBucket k (groupByYear preds)).Pairwise (fun a b => b.prob ≤ a.prob) ∧
    (getBucket k (groupByYear preds)).filter (fun p => p.prob == q) =
      (preds.filter (fun p => keyOf p == some k)).filter (fun p => p.prob == q) := by
  refine ⟨?_, ?_, ?_⟩
  · rw [keys_groupByYear]
    exact nodup_keys_rawGroup_gen preds [] (by simp)
  · rw [getBucket_groupByYear]
    exact sortDesc_pairwise _
  · rw [getBucket_groupByYear]
    exact sortDesc_filter q _

/-! ## Claim theorems: re-extraction grouping and the fetch loop -/

theorem mem_sortDesc {x : PredictionEvent} {l : List PredictionEvent} :
    x ∈ sortDesc l ↔ x ∈ l := by
  induction l with
  | nil => simp [sortDesc]
  | cons p ps ih => simp [sortDesc, mem_insertDesc, ih]

/-- C1 counterexample: a record whose year comes only from the description
passes EventProcessor's year gate but is silently dropped by
TimelineGrouper's re-extraction, which reads the event text (the question)
alone — the processed event appears in no year bucket. -/
theorem C1_counterexample :
    (processPolymarketEvents
      [⟨some "Will bitcoin crash?", some "Resolves by 2026.",
        JsonField.arr ["Yes", "No"], JsonField.arr ["0.5", "0.5"],
        some "9999"⟩]).length = 1 ∧
    groupByYear (processPolymarketEvents
      [⟨some "Will bitcoin crash?", some "Resolves by 2026.",
        JsonField.arr ["Yes", "No"], JsonField.arr ["0.5", "0.5"],
        some "9999"⟩]) = [] := by decide

/-- C1 (amended): a processed event appears in exactly one year bucket
— that of its re-extracted year — when its own event text still yields a
year; an event whose year came only from the description yields no year on
re-extraction and appears in no bucket. -/
theorem C1_regrouping_membership (events : List PolymarketEvent)
    (p : PredictionEvent) (hp : p ∈ processPolymarketEvents events) :
    (∀ y, extractYear p.event = some y →
      p ∈ getBucket (toString y) (groupByYear (processPolymarketEvents events)) ∧
      ∀ k, p ∈ getBucket k (groupByYear (processPolymarketEvents events)) →
        k = toString y) ∧
    (extractYear p.event = none →
      ∀ k, p ∉ getBucket k (groupByYear (processPolymarketEvents events))) := by
  constructor
  · intro y hy
    constructor
    · rw [getBucket_groupByYear]
      exact mem_sortDesc.mpr (List.mem_filter.mpr ⟨hp, by simp [keyOf, hy]⟩)
    · intro k hk
      rw [getBucket_groupByYear] at hk
      have hmem := List.mem_filter.mp (mem_sortDesc.mp hk)
      have := hmem.2
      simp [keyOf, hy] at this
      exact this.symm
  · intro hn k hk
    rw [getBucket_groupByYear] at hk
    have hmem := List.mem_filter.mp (mem_sortDesc.mp hk)
    have := hmem.2
    simp [keyOf, hn] at this

theorem C1_witness :
    ((processPolymarketEvents
      [⟨some "Will bitcoin crash in 2026?", none, JsonField.arr ["Yes", "No"],
        JsonField.arr ["0.5", "0.5"], some "9999"⟩]).headI) ∈
      getBucket (toString 2026) (groupByYear (processPolymarketEvents
        [⟨some "Will bitcoin crash in 2026?", none, JsonField.arr ["Yes", "No"],
          JsonField.arr ["0.5", "0.5"], some "9999"⟩])) :=
  ((C1_regrouping_membership _ _ (headI_mem_of_ne_nil (by decide))).1 2026
    (by decide)).1

/-- An environment answering 429 at offset 0 on every attempt, one record at
offset 100, end-of-data beyond (used by the C2 counterexample). -/
def c2env : Env := fun offsetv _ =>
  if offsetv = 0 then ApiResponse.rateLimited none
  else if offsetv = 100 then
    ApiResponse.ok [⟨none, none, JsonField.absent, JsonField.absent, none⟩]
  else ApiResponse.ok []

/-- An environment whose every request throws (used by the C2 witness). -/
def failEnv : Env := fun _ _ => ApiResponse.failure

/-- C2 counterexample: exhausting the retry budget at offset 0 through
repeated 429 responses does not abandon pagination — the page is skipped
and the fetch goes on to return the records of the next page, not the
(empty) accumulation of earlier pages. -/
theorem C2_counterexample :
    fetchPage c2env 0 3 3 = PageOutcome.skip ∧
    fetchPolymarketEvents c2env 1000 3 10 =
      some [⟨none, none, JsonField.absent, JsonField.absent, none⟩] ∧
    fetchPolymarketEvents c2env 1000 3 10 ≠ some [] := by decide

theorem fetchPage_abort (env : Env) (offsetv retries : Nat) :
    ∀ remaining, 1 ≤ remaining → remaining ≤ retries →
      (∀ a, a < retries → env offsetv a = ApiResponse.failure) →
      fetchPage env offsetv retries remaining = PageOutcome.abort := by
  intro remaining
  induction remaining with
  | zero => intro h; exact absurd h (by omega)
  | succ r ihr =>
    intro _ h2 hall
    have hfail := hall (retries - (r + 1)) (by omega)
    rw [fetchPage, hfail]
    by_cases hr : r = 0
    · simp [hr]
    · simp only [if_neg hr]
      exact ihr (by omega) (by omega) hall

theorem fetchPage_skip (env : Env) (offsetv retries : Nat) :
    ∀ remaining, remaining ≤ retries →
      (∀ a, a < retries → ∃ w, env offsetv a = ApiResponse.rateLimited w) →
      fetchPage env offsetv retries remaining = PageOutcome.skip := by
  intro remaining
  induction remaining with
  | zero => intro _ _; rfl
  | succ r ihr =>
    intro h2 hall
    obtain ⟨w, hw⟩ := hall (retries - (r + 1)) (by omega)
    rw [fetchPage, hw]
    exact ihr (by omega) hall

/-- C2 (amended): the fetcher never throws — the embedding's result type has
no error case because every throwing statement of the loop body sits inside
the `try` and the `catch` returns normally.  When the per-page retry budget
is exhausted by thrown failures (the last attempt's `catch` fires),
pagination is abandoned and exactly the accumulated records are returned;
when it is exhausted by repeated 429 responses, the attempt loop falls
through without returning, the page is skipped, and pagination continues at
the next offset. -/
theorem C2_fetch_retry_exhaustion (env : Env)
    (retries maxMarkets fuel offsetv : Nat) (acc : List PolymarketEvent)
    (hacc : acc.length < maxMarkets) :
    (1 ≤ retries → (∀ a, a < retries → env offsetv a = ApiResponse.failure) →
      fetchLoop env maxMarkets 100 retries (fuel + 1) acc offsetv = some acc) ∧
    ((∀ a, a < retries → ∃ w, env offsetv a = ApiResponse.rateLimited w) →
      fetchLoop env maxMarkets 100 retries (fuel + 1) acc offsetv =
        fetchLoop env maxMarkets 100 retries fuel acc (offsetv + 100)) := by
  constructor
  · intro hr hall
    have hpage := fetchPage_abort env offsetv retries retries hr le_rfl hall
    simp only [fetchLoop, if_pos hacc, hpage]
  · intro hall
    have hpage := fetchPage_skip env offsetv retries retries le_rfl hall
    simp only [fetchLoop, if_pos hacc, hpage]

theorem C2_witness : fetchLoop failEnv 5 100 3 1 [] 0 = some [] :=
  (C2_fetch_retry_exhaustion failEnv 3 5 0 0 [] (by decide)).1 (by decide)
    (fun _ _ => rfl)

end Oracle

/-! ## Sanity checks of the `extractYear` embedding on concrete texts -/

section SanityChecks
open Oracle
example : extractYear "by 2027" = some 2027 := by decide
example : extractYear "2024" = none := by decide
example : extractYear "2040" = none := by decide
example : extractYear "Q3 2026" = some 2026 := by decide
example : extractYear "2026 blah by 2030" = some 2026 := by decide
example : extractYear "will happen January 2029 ok" = some 2029 := by decide
example : extractYear "jan. 2031" = some 2031 := by decide
example : extractYear "x2025y" = none := by decide
example : extractYear "Will bitcoin crash?" = none := by decide
example : extractYear "Resolves by 2026." = some 2026 := by decide
end SanityChecks
